import Mathlib

/-!
Verification of the nucmass nuclide data-fusion and derived-quantity engine.

This file gives a shallow embedding of the relevant parts of the nucmass
Python package (src/nucmass/database.py, ame2020.py, frdm2012.py, config.py,
exceptions.py) and proves properties of the embedded operations.

Modelling conventions:
* Python floats carrying physical energies are modelled as exact rationals
  (the claims under study are about formulas and missing-data propagation,
  not floating-point rounding).
* Python None / pandas NaN for a missing value is modelled as Option.none;
  pd.notna(x) corresponds to x matching some.
* Python exceptions are modelled with Except: each operation that can raise
  returns Except NucError; raising is .error, normal return is .ok.
* The DuckDB nuclides view is modelled as a list of rows; SELECT ... WHERE
  Z = ? AND N = ? returning df.iloc[0] is List.find?.
* The class-level OrderedDict LRU cache is modelled as an association list,
  oldest entry first, newest last: OrderedDict.popitem(last=False) drops the
  head, move_to_end moves the unique entry for a key to the tail.  The
  claims considered here are single-threaded, so the mutex around the cache
  is not modelled.
-/

namespace Nucmass

/-- Physical constants from config.py (Config, keV): neutron mass excess. -/
def NEUTRON_MASS_EXCESS : ℚ := 807132 / 100

/-- Proton / hydrogen-atom mass excess (keV), config.py. -/
def PROTON_MASS_EXCESS : ℚ := 728897 / 100

/-- Alpha-particle mass excess (keV), config.py. -/
def ALPHA_MASS_EXCESS : ℚ := 242492 / 100

/-- Configured bound Z_MIN from config.py. -/
def Z_MIN : Int := 0

/-- Configured bound Z_MAX from config.py. -/
def Z_MAX : Int := 140

/-- Configured bound N_MIN from config.py. -/
def N_MIN : Int := 0

/-- Configured bound N_MAX from config.py. -/
def N_MAX : Int := 250

/-- The exception taxonomy of exceptions.py, restricted to the constructors
reachable from the operations embedded here.  InvalidNuclideError and
ValueError are the parameter errors; NuclideNotFoundError carries the
(z, n) pair and the suggestion list built in get_nuclide;
DatabaseCorruptError carries the db path and a reason. -/
inductive NucError where
  | invalidNuclide (msg : String)
  | valueError (msg : String)
  | nuclideNotFound (z n : Int) (suggestions : List (Int × Int))
  | databaseCorrupt (dbPath reason : String)
deriving DecidableEq

/-- One row of the fused nuclides view, restricted to the columns the
derived-quantity engine reads: identity (Z, N) and the two mass-excess
columns (mass_excess_exp_keV from ame2020, mass_excess_th_keV from
frdm2012), each nullable. -/
structure Row where
  z : Int
  n : Int
  massExcessExp : Option ℚ
  massExcessTh : Option ℚ
deriving DecidableEq

/-- Key of the class-level mass cache: (str(db_path), z, n, prefer),
as built in NuclearDatabase.get_mass_excess. -/
structure CacheKey where
  path : String
  z : Int
  n : Int
  prefer : String
deriving DecidableEq

/-- The state a NuclearDatabase instance closes over: its db_path, the rows
of the nuclides view behind its connection, the shared LRU cache
(_mass_cache, oldest first), the _cache_enabled flag and _CACHE_MAX_SIZE. -/
structure DbState where
  path : String
  rows : List Row
  cache : List (CacheKey × Option ℚ)
  cacheEnabled : Bool
  cacheMax : Nat
deriving DecidableEq

/-- _validate_z from database.py: Z out of [Z_MIN, Z_MAX] raises
InvalidNuclideError. (The isinstance check is subsumed by the Int type.) -/
def validate_z (z : Int) : Except NucError Unit :=
  if z < Z_MIN ∨ z > Z_MAX then .error (.invalidNuclide "Z out of valid range")
  else .ok ()

/-- _validate_n from database.py. -/
def validate_n (n : Int) : Except NucError Unit :=
  if n < N_MIN ∨ n > N_MAX then .error (.invalidNuclide "N out of valid range")
  else .ok ()

/-- SELECT * FROM nuclides WHERE Z = ? AND N = ?, taking the first row
(df.iloc[0]) when nonempty. -/
def findRow (rows : List Row) (z n : Int) : Option Row :=
  rows.find? (fun r => decide (r.z = z ∧ r.n = n))

/-- The DISTINCT available N values for a given Z, in ascending order:
SELECT DISTINCT N FROM nuclides WHERE Z = ? ORDER BY N (get_nuclide). -/
def availableN (rows : List Row) (z : Int) : List Int :=
  (((rows.filter (fun r => decide (r.z = z))).map (fun r => r.n)).dedup).insertionSort
    (fun a b => a ≤ b)

/-- The suggestion list [(z, int(row.N)) for each available N] built in
get_nuclide before raising NuclideNotFoundError. -/
def suggestionsFor (rows : List Row) (z : Int) : List (Int × Int) :=
  (availableN rows z).map (fun n => (z, n))

/-- NuclearDatabase.get_nuclide_or_none: validate, query, None on absence. -/
def get_nuclide_or_none (rows : List Row) (z n : Int) : Except NucError (Option Row) :=
  match validate_z z with
  | .error e => .error e
  | .ok _ =>
    match validate_n n with
    | .error e => .error e
    | .ok _ => .ok (findRow rows z n)

/-- NuclearDatabase.get_nuclide: validate, query, raise NuclideNotFoundError
with the suggestion list on absence. -/
def get_nuclide (rows : List Row) (z n : Int) : Except NucError Row :=
  match validate_z z with
  | .error e => .error e
  | .ok _ =>
    match validate_n n with
    | .error e => .error e
    | .ok _ =>
      match findRow rows z n with
      | some r => .ok r
      | none => .error (.nuclideNotFound z n (suggestionsFor rows z))

/-- Cache lookup: the value stored under a key, if present
(`if cache_key in NuclearDatabase._mass_cache`). -/
def cacheFind (c : List (CacheKey × Option ℚ)) (k : CacheKey) : Option (Option ℚ) :=
  (c.find? (fun e => decide (e.1 = k))).map (fun e => e.2)

/-- OrderedDict.move_to_end: the unique entry for the key is moved to the
most-recently-used end. -/
def moveToEnd (c : List (CacheKey × Option ℚ)) (k : CacheKey) :
    List (CacheKey × Option ℚ) :=
  match c.find? (fun e => decide (e.1 = k)) with
  | none => c
  | some e => (c.filter (fun e2 => decide (¬ e2.1 = k))) ++ [e]

/-- The eviction loop `while len(cache) >= max: cache.popitem(last=False)`:
oldest entries are dropped from the front until fewer than maxSize remain. -/
def cacheEvict (c : List (CacheKey × Option ℚ)) (maxSize : Nat) :
    List (CacheKey × Option ℚ) :=
  c.drop (c.length + 1 - maxSize)

/-- Store a freshly computed result: evict at capacity, then append as the
most recent entry (`_mass_cache[cache_key] = result`). -/
def cacheInsert (c : List (CacheKey × Option ℚ)) (maxSize : Nat) (k : CacheKey)
    (v : Option ℚ) : List (CacheKey × Option ℚ) :=
  cacheEvict c maxSize ++ [(k, v)]

/-- The prefer-dependent selection in get_mass_excess once the nuclide row
(or its absence) is known: experimental-first with theoretical fallback, or
the reverse; pd.notna corresponds to the some cases. -/
def massFromNuclide (nuclide : Option Row) (prefer : String) : Option ℚ :=
  match nuclide with
  | none => none
  | some r =>
    if prefer = "experimental" then
      match r.massExcessExp with
      | some v => some v
      | none =>
        match r.massExcessTh with
        | some v => some v
        | none => none
    else
      match r.massExcessTh with
      | some v => some v
      | none =>
        match r.massExcessExp with
        | some v => some v
        | none => none

/-- The cache-free value of get_mass_excess: what the query-and-select part
computes from the view rows. -/
def computeMassExcess (rows : List Row) (z n : Int) (prefer : String) : Option ℚ :=
  massFromNuclide (findRow rows z n) prefer

/-- NuclearDatabase.get_mass_excess (keV): reject a bad prefer literal, then
serve from the LRU cache when enabled and warm, otherwise look the nuclide
up (validating Z and N), select by preference, and store the result. -/
def get_mass_excess (st : DbState) (z n : Int) (prefer : String) :
    Except NucError (Option ℚ × DbState) :=
  if prefer ≠ "experimental" ∧ prefer ≠ "theoretical" then
    .error (.valueError "prefer must be experimental or theoretical")
  else
    match (if st.cacheEnabled then cacheFind st.cache ⟨st.path, z, n, prefer⟩
           else none) with
    | some v => .ok (v, { st with cache := moveToEnd st.cache ⟨st.path, z, n, prefer⟩ })
    | none =>
      match get_nuclide_or_none st.rows z n with
      | .error e => .error e
      | .ok nuclide =>
        if st.cacheEnabled then
          .ok (massFromNuclide nuclide prefer,
            { st with cache := (cacheInsert st.cache st.cacheMax
                ⟨st.path, z, n, prefer⟩ (massFromNuclide nuclide prefer)) })
        else
          .ok (massFromNuclide nuclide prefer, st)

/-- NuclearDatabase.get_binding_energy (MeV):
B = Z*Delta_H + N*Delta_n - mass_excess(Z,N), then keV -> MeV. -/
def get_binding_energy (st : DbState) (z n : Int) :
    Except NucError (Option ℚ × DbState) :=
  match get_mass_excess st z n "experimental" with
  | .error e => .error e
  | .ok (massExcessKeV, st1) =>
    match massExcessKeV with
    | none => .ok (none, st1)
    | some m =>
      .ok (some (((z : ℚ) * PROTON_MASS_EXCESS + (n : ℚ) * NEUTRON_MASS_EXCESS - m)
        / 1000), st1)

/-- NuclearDatabase.get_separation_energy_n (MeV):
S_n(Z,N) = M(Z,N-1) + M_n - M(Z,N); None for N < 1 or missing masses. -/
def get_separation_energy_n (st : DbState) (z n : Int) :
    Except NucError (Option ℚ × DbState) :=
  if n < 1 then .ok (none, st)
  else
    match get_mass_excess st z n "experimental" with
    | .error e => .error e
    | .ok (mParent, st1) =>
      match get_mass_excess st1 z (n - 1) "experimental" with
      | .error e => .error e
      | .ok (mDaughter, st2) =>
        match mParent, mDaughter with
        | some p, some d => .ok (some ((d + NEUTRON_MASS_EXCESS - p) / 1000), st2)
        | _, _ => .ok (none, st2)

/-- NuclearDatabase.get_separation_energy_p (MeV):
S_p(Z,N) = M(Z-1,N) + M_H - M(Z,N); None for Z < 1 or missing masses. -/
def get_separation_energy_p (st : DbState) (z n : Int) :
    Except NucError (Option ℚ × DbState) :=
  if z < 1 then .ok (none, st)
  else
    match get_mass_excess st z n "experimental" with
    | .error e => .error e
    | .ok (mParent, st1) =>
      match get_mass_excess st1 (z - 1) n "experimental" with
      | .error e => .error e
      | .ok (mDaughter, st2) =>
        match mParent, mDaughter with
        | some p, some d => .ok (some ((d + PROTON_MASS_EXCESS - p) / 1000), st2)
        | _, _ => .ok (none, st2)

/-- NuclearDatabase.get_separation_energy_2n (MeV):
S_2n(Z,N) = M(Z,N-2) + 2*M_n - M(Z,N); None for N < 2 or missing masses. -/
def get_separation_energy_2n (st : DbState) (z n : Int) :
    Except NucError (Option ℚ × DbState) :=
  if n < 2 then .ok (none, st)
  else
    match get_mass_excess st z n "experimental" with
    | .error e => .error e
    | .ok (mParent, st1) =>
      match get_mass_excess st1 z (n - 2) "experimental" with
      | .error e => .error e
      | .ok (mDaughter, st2) =>
        match mParent, mDaughter with
        | some p, some d => .ok (some ((d + 2 * NEUTRON_MASS_EXCESS - p) / 1000), st2)
        | _, _ => .ok (none, st2)

/-- NuclearDatabase.get_separation_energy_2p (MeV):
S_2p(Z,N) = M(Z-2,N) + 2*M_H - M(Z,N); None for Z < 2 or missing masses. -/
def get_separation_energy_2p (st : DbState) (z n : Int) :
    Except NucError (Option ℚ × DbState) :=
  if z < 2 then .ok (none, st)
  else
    match get_mass_excess st z n "experimental" with
    | .error e => .error e
    | .ok (mParent, st1) =>
      match get_mass_excess st1 (z - 2) n "experimental" with
      | .error e => .error e
      | .ok (mDaughter, st2) =>
        match mParent, mDaughter with
        | some p, some d => .ok (some ((d + 2 * PROTON_MASS_EXCESS - p) / 1000), st2)
        | _, _ => .ok (none, st2)

/-- NuclearDatabase.get_separation_energy_alpha (MeV):
S_alpha(Z,N) = M(Z-2,N-2) + M_alpha - M(Z,N); None for Z < 2 or N < 2 or
missing masses. -/
def get_separation_energy_alpha (st : DbState) (z n : Int) :
    Except NucError (Option ℚ × DbState) :=
  if z < 2 ∨ n < 2 then .ok (none, st)
  else
    match get_mass_excess st z n "experimental" with
    | .error e => .error e
    | .ok (mParent, st1) =>
      match get_mass_excess st1 (z - 2) (n - 2) "experimental" with
      | .error e => .error e
      | .ok (mDaughter, st2) =>
        match mParent, mDaughter with
        | some p, some d => .ok (some ((d + ALPHA_MASS_EXCESS - p) / 1000), st2)
        | _, _ => .ok (none, st2)

/-- The nested function get_light_particle_mass inside get_q_value: the fixed
table for gamma (0,0), neutron (0,1), proton (1,0) and alpha (2,2), and for
any other particle the recursive database lookup
`m = self.get_mass_excess(z, n)` followed by `return m * 1000 if m else None`.
The Python conditional treats both None and 0.0 as falsy, and multiplies the
keV-valued lookup result by 1000. -/
def get_light_particle_mass (st : DbState) (z n : Int) :
    Except NucError (Option ℚ × DbState) :=
  if z = 0 ∧ n = 0 then .ok (some 0, st)
  else if z = 0 ∧ n = 1 then .ok (some NEUTRON_MASS_EXCESS, st)
  else if z = 1 ∧ n = 0 then .ok (some PROTON_MASS_EXCESS, st)
  else if z = 2 ∧ n = 2 then .ok (some ALPHA_MASS_EXCESS, st)
  else
    match get_mass_excess st z n "experimental" with
    | .error e => .error e
    | .ok (m, st1) =>
      match m with
      | some v => if v = 0 then .ok (none, st1) else .ok (some (v * 1000), st1)
      | none => .ok (none, st1)

/-- NuclearDatabase.get_q_value (MeV): look up initial and final masses,
return None if either is missing, infer the projectile from conservation of
Z and N, resolve projectile and ejectile through get_light_particle_mass,
and compute Q = (M_i + M_proj) - (M_f + M_ej), keV -> MeV. -/
def get_q_value (st : DbState) (zInitial nInitial zFinal nFinal zEjectile nEjectile : Int) :
    Except NucError (Option ℚ × DbState) :=
  match get_mass_excess st zInitial nInitial "experimental" with
  | .error e => .error e
  | .ok (mInitial, st1) =>
    match get_mass_excess st1 zFinal nFinal "experimental" with
    | .error e => .error e
    | .ok (mFinal, st2) =>
      match mInitial, mFinal with
      | some mi, some mf =>
        let zProjectile := zFinal + zEjectile - zInitial
        let nProjectile := nFinal + nEjectile - nInitial
        match get_light_particle_mass st2 zProjectile nProjectile with
        | .error e => .error e
        | .ok (mProjectile, st3) =>
          match get_light_particle_mass st3 zEjectile nEjectile with
          | .error e => .error e
          | .ok (mEjectile, st4) =>
            match mProjectile, mEjectile with
            | some mp, some me => .ok (some (((mi + mp) - (mf + me)) / 1000), st4)
            | _, _ => .ok (none, st4)
      | _, _ => .ok (none, st2)

/-! ### Source parser models (ame2020.py, frdm2012.py)

The pandas string-to-number plumbing is abstracted at token level: a raw
cell is either missing (read as NaN, modelled none) or a Token recording
whether the raw text contains the AME estimated marker '#' and what
pd.to_numeric yields on the text with '#' removed (none when the text is
not numeric).  This keeps every row-retention decision of the cleaning
code exactly, while avoiding a character-level reimplementation of
pd.to_numeric. -/

/-- A non-missing raw cell: hasHash says whether the raw text contains '#';
numericVal is pd.to_numeric applied to the text after removing '#'
(none when not numeric). -/
structure Token where
  hasHash : Bool
  numericVal : Option ℚ
deriving DecidableEq

/-- pd.to_numeric(errors="coerce") applied to the raw text directly: a text
still containing '#' is not numeric. -/
def Token.toNumericRaw (t : Token) : Option ℚ :=
  if t.hasHash then none else t.numericVal

/-- pd.to_numeric followed by .astype("Int64"): integral values only. -/
def Token.toIntCol (t : Token) : Option Int :=
  match t.toNumericRaw with
  | none => none
  | some q => if q.den = 1 then some q.num else none

/-- The '#'-aware conversion applied to AME numeric columns: the value of
the text with '#' removed, and the estimated flag
df[col].str.contains("#", na=False). -/
def numericWithFlag (c : Option Token) : Option ℚ × Bool :=
  (c.bind (fun t => t.numericVal), (c.map Token.hasHash).getD false)

/-- A raw row of the fixed-width AME2020 file as read by read_fwf with
dtype=str (ame2020.py COLSPECS / COLUMN_NAMES).  The numeric columns other
than mass excess and the atomic-mass pair undergo the identical
numericWithFlag transformation and are grouped in otherNumeric
(Mass_excess_unc, Binding_energy_per_A and unc, Beta_decay_energy and unc,
Atomic_mass_unc). -/
structure AMERawRow where
  cc : Option Token
  nzTok : Option Token
  nTok : Option Token
  zTok : Option Token
  aTok : Option Token
  element : Option String
  origin : Option String
  betaType : Option String
  massExcessTok : Option Token
  atomicMassIntTok : Option Token
  atomicMassMicroUTok : Option Token
  otherNumeric : List (Option Token)
deriving DecidableEq

/-- A row of AME2020Parser._clean_dataframe's output.  After the final
dropna(subset=["Z"]) the Z column is non-null; every other column stays
nullable. -/
structure AMERow where
  nz : Option Int
  n : Option Int
  z : Int
  a : Option Int
  element : Option String
  origin : Option String
  betaType : Option String
  massExcess : Option ℚ
  massExcessEstimated : Bool
  atomicMassMicroU : Option ℚ
  atomicMassMicroUEstimated : Bool
  otherNumeric : List (Option ℚ × Bool)
deriving DecidableEq

/-- AME2020Parser._clean_dataframe, per row: drop rows with a missing raw
Z, N or A cell (first dropna); convert NZ, N, Z, A with
pd.to_numeric(errors="coerce").astype("Int64"); flag and strip '#' on the
numeric columns; combine the atomic-mass integer and micro-u parts
(Atomic_mass_int * 1e6 + Atomic_mass_micro_u, NaN-propagating); drop the
cc and Atomic_mass_int columns; finally drop rows whose converted Z is
null (second dropna).  No A = Z + N validation occurs anywhere. -/
def ame_clean_row (r : AMERawRow) : Option AMERow :=
  match r.zTok, r.nTok, r.aTok with
  | some zt, some nt, some at_ =>
    match zt.toIntCol with
    | none => none
    | some zv =>
      let massExcessPair := numericWithFlag r.massExcessTok
      let microPair := numericWithFlag r.atomicMassMicroUTok
      let amInt := r.atomicMassIntTok.bind Token.toNumericRaw
      let combinedMicro : Option ℚ :=
        match amInt, microPair.1 with
        | some i, some m => some (i * 1000000 + m)
        | _, _ => none
      some
        { nz := (r.nzTok.bind Token.toIntCol)
          n := nt.toIntCol
          z := zv
          a := at_.toIntCol
          element := r.element
          origin := r.origin
          betaType := r.betaType
          massExcess := massExcessPair.1
          massExcessEstimated := massExcessPair.2
          atomicMassMicroU := combinedMicro
          atomicMassMicroUEstimated := microPair.2
          otherNumeric := r.otherNumeric.map numericWithFlag }
  | _, _, _ => none

/-- AME2020Parser._clean_dataframe over the whole frame. -/
def ame_clean (rows : List AMERawRow) : List AMERow :=
  rows.filterMap ame_clean_row

/-- Length of the column list "Z" :: FRDM2012_COLUMNS used by the
text-based FRDM2012 extraction (1 + 18 columns). -/
def FRDM_EXPECTED_LEN : Nat := 19

/-- A row of FRDM2012Extractor._build_dataframe's output: after
dropna(subset=["Z", "N", "A"]) the identity columns are non-null; the
remaining 16 numeric columns stay nullable. -/
structure FRDMRow where
  z : Int
  n : Int
  a : Int
  rest : List (Option ℚ)
deriving DecidableEq

/-- One row of FRDM2012Extractor._build_dataframe, specialised to the
column layout of the text-based extraction ("Z" :: FRDM2012_COLUMNS, so Z,
N, A are cells 0, 1, 2): convert Z, N, A with
pd.to_numeric(errors="coerce").astype("Int64"), drop the row if any is
null, convert the rest with pd.to_numeric (unicode-minus normalisation is
inside the token abstraction), and discard the row when A != Z + N
(the validation that logs the invalid count and keeps only valid rows). -/
def frdm_build_row (r : List (Option Token)) : Option FRDMRow :=
  match r with
  | c0 :: c1 :: c2 :: restCells =>
    match (c0.bind Token.toIntCol), (c1.bind Token.toIntCol), (c2.bind Token.toIntCol) with
    | some z, some n, some a =>
      if a = z + n then
        some ⟨z, n, a, restCells.map (fun c => c.bind Token.toNumericRaw)⟩
      else none
    | _, _, _ => none
  | _ => none

/-- FRDM2012Extractor._build_dataframe: keep raw rows with at least 3
cells, trim or pad each to the expected column count, then clean row-wise
(including the A = Z + N validation). -/
def frdm_build (rows : List (List (Option Token))) : List FRDMRow :=
  ((rows.filter (fun r => decide (3 ≤ r.length))).map
    (fun r => r.take FRDM_EXPECTED_LEN
      ++ List.replicate (FRDM_EXPECTED_LEN - r.length) none)).filterMap frdm_build_row

/-! ### Persisted-database validation (database.py _validate_database) -/

/-- A row of the persisted nuclides view as seen by the integrity check
(its identity columns). -/
structure ViewRow where
  z : Int
  n : Int
  a : Int
deriving DecidableEq

/-- The structural content of a persisted database artifact that
_validate_database inspects: SHOW TABLES, the view names from
information_schema, and the rows of the nuclides view. -/
structure Artifact where
  tableNames : List String
  viewNames : List String
  nuclides : List ViewRow
deriving DecidableEq

/-- NuclearDatabase._validate_database: require the ame2020 and frdm2012
tables, the nuclides view, and zero rows with A != Z + N
(SELECT COUNT(*) FROM nuclides WHERE A != Z + N); any failure raises
DatabaseCorruptError. -/
def validate_database (dbPath : String) (art : Artifact) : Except NucError Unit :=
  if ¬ ("ame2020" ∈ art.tableNames) ∨ ¬ ("frdm2012" ∈ art.tableNames) then
    .error (.databaseCorrupt dbPath "Missing required tables")
  else if ¬ ("nuclides" ∈ art.viewNames) then
    .error (.databaseCorrupt dbPath "Missing nuclides view")
  else if 0 < (art.nuclides.filter (fun r => decide (¬ r.a = r.z + r.n))).length then
    .error (.databaseCorrupt dbPath "Data integrity check failed: A != Z + N")
  else .ok ()

/-- The existing-database branch of NuclearDatabase._create_connection:
connect to the artifact, run _validate_database, and return the connection;
a DatabaseCorruptError from validation propagates. -/
def create_connection_existing (dbPath : String) (art : Artifact) :
    Except NucError Artifact :=
  match validate_database dbPath art with
  | .error e => .error e
  | .ok _ => .ok art

/-! ### Invariants and helper lemmas -/

/-- Z lies within the configured bounds of config.py. -/
def inBoundsZ (z : Int) : Prop := Z_MIN ≤ z ∧ z ≤ Z_MAX

/-- N lies within the configured bounds of config.py. -/
def inBoundsN (n : Int) : Prop := N_MIN ≤ n ∧ n ≤ N_MAX

instance : DecidablePred inBoundsZ := fun z => by unfold inBoundsZ; infer_instance

instance : DecidablePred inBoundsN := fun n => by unfold inBoundsN; infer_instance

/-- Invariant of every reachable cache: an entry keyed to this database's
path was stored by get_mass_excess after validation, so its Z and N are in
bounds and its value is the cache-free lookup result.  The empty cache
satisfies it, and the operations below preserve it. -/
def CacheOK (st : DbState) : Prop :=
  ∀ e ∈ st.cache, e.1.path = st.path →
    inBoundsZ e.1.z ∧ inBoundsN e.1.n ∧
    e.2 = computeMassExcess st.rows e.1.z e.1.n e.1.prefer

theorem cacheFind_eq_some {c : List (CacheKey × Option ℚ)} {k : CacheKey}
    {v : Option ℚ} (h : cacheFind c k = some v) :
    ∃ e ∈ c, e.1 = k ∧ e.2 = v := by
  unfold cacheFind at h
  rcases hfind : c.find? (fun e => decide (e.1 = k)) with _ | e
  · rw [hfind] at h; simp at h
  · rw [hfind] at h
    have hk := List.find?_some hfind
    simp only [decide_eq_true_eq] at hk
    exact ⟨e, List.mem_of_find?_eq_some hfind, hk, by simpa using h⟩

theorem mem_moveToEnd {c : List (CacheKey × Option ℚ)} {k : CacheKey}
    {e : CacheKey × Option ℚ} (h : e ∈ moveToEnd c k) : e ∈ c := by
  unfold moveToEnd at h
  rcases hfind : c.find? (fun e2 => decide (e2.1 = k)) with _ | e0
  · rwa [hfind] at h
  · rw [hfind] at h
    rcases List.mem_append.mp h with h1 | h1
    · exact List.mem_of_mem_filter h1
    · rcases List.mem_singleton.mp h1 with rfl
      exact List.mem_of_find?_eq_some hfind

theorem mem_cacheInsert {c : List (CacheKey × Option ℚ)} {maxSize : Nat}
    {k : CacheKey} {v : Option ℚ} {e : CacheKey × Option ℚ}
    (h : e ∈ cacheInsert c maxSize k v) : e ∈ c ∨ e = (k, v) := by
  unfold cacheInsert cacheEvict at h
  rcases List.mem_append.mp h with h1 | h1
  · exact Or.inl (List.drop_subset _ _ h1)
  · exact Or.inr (List.mem_singleton.mp h1)

theorem filter_ne_find?_none (c : List (CacheKey × Option ℚ)) (k : CacheKey) :
    (c.filter (fun e2 => decide (¬ e2.1 = k))).find?
      (fun e => decide (e.1 = k)) = none := by
  rw [List.find?_eq_none]
  intro x hx
  have hxf := List.of_mem_filter hx
  simp at hxf ⊢
  exact hxf

theorem cacheFind_moveToEnd_self {c : List (CacheKey × Option ℚ)} {k : CacheKey}
    {v : Option ℚ} (h : cacheFind c k = some v) :
    cacheFind (moveToEnd c k) k = some v := by
  rcases hfind : c.find? (fun e => decide (e.1 = k)) with _ | e0
  · unfold cacheFind at h
    rw [hfind] at h
    simp at h
  · have he0 : e0.2 = v := by
      unfold cacheFind at h
      rw [hfind] at h
      simpa using h
    have hk0 := List.find?_some hfind
    unfold moveToEnd
    rw [hfind]
    unfold cacheFind
    rw [List.find?_append, filter_ne_find?_none, Option.none_or]
    simp only [decide_eq_true_eq] at hk0
    simp [List.find?_cons, hk0, he0]

theorem cacheFind_cacheInsert_self {c : List (CacheKey × Option ℚ)}
    {maxSize : Nat} {k : CacheKey} {v : Option ℚ}
    (h : cacheFind c k = none) :
    cacheFind (cacheInsert c maxSize k v) k = some v := by
  have hnone : c.find? (fun e => decide (e.1 = k)) = none := by
    unfold cacheFind at h
    rcases hf : c.find? (fun e => decide (e.1 = k)) with _ | e0
    · exact hf
    · rw [hf] at h
      simp at h
  have hevict : (cacheEvict c maxSize).find? (fun e => decide (e.1 = k)) = none := by
    rw [List.find?_eq_none] at hnone ⊢
    intro x hx
    exact hnone x (List.drop_subset _ _ hx)
  unfold cacheFind cacheInsert
  rw [List.find?_append, hevict, Option.none_or]
  simp [List.find?_cons]

theorem computeMassExcess_none_iff (rows : List Row) (z n : Int) (prefer : String) :
    computeMassExcess rows z n prefer = none ↔
      ((findRow rows z n).bind Row.massExcessExp = none ∧
       (findRow rows z n).bind Row.massExcessTh = none) := by
  unfold computeMassExcess massFromNuclide
  rcases findRow rows z n with _ | r
  · simp
  · rcases hexp : r.massExcessExp with _ | ve <;>
      rcases hth : r.massExcessTh with _ | vt <;>
      by_cases hp : prefer = "experimental" <;>
      simp [hp, hexp, hth]

/-- Central lemma: for in-bounds arguments, a valid prefer literal and a
cache satisfying the reachable-state invariant, get_mass_excess succeeds
with the cache-free lookup value, and the invariant together with the
rows, path, flag and capacity are preserved. -/
theorem get_mass_excess_ok (st : DbState) (z n : Int) (prefer : String)
    (hz : inBoundsZ z) (hn : inBoundsN n)
    (hp : prefer = "experimental" ∨ prefer = "theoretical")
    (hc : CacheOK st) :
    ∃ st', get_mass_excess st z n prefer
        = .ok (computeMassExcess st.rows z n prefer, st')
      ∧ CacheOK st' ∧ st'.rows = st.rows ∧ st'.path = st.path
      ∧ st'.cacheEnabled = st.cacheEnabled ∧ st'.cacheMax = st.cacheMax := by
  have hpne : ¬ (prefer ≠ "experimental" ∧ prefer ≠ "theoretical") := by
    rcases hp with h | h <;> simp [h]
  have hvz : validate_z z = .ok () := by
    unfold validate_z
    rw [if_neg]
    push_neg
    exact ⟨hz.1, hz.2⟩
  have hvn : validate_n n = .ok () := by
    unfold validate_n
    rw [if_neg]
    push_neg
    exact ⟨hn.1, hn.2⟩
  unfold get_mass_excess
  rw [if_neg hpne]
  have hq : get_nuclide_or_none st.rows z n = .ok (findRow st.rows z n) := by
    unfold get_nuclide_or_none
    rw [hvz, hvn]
  rcases hen : st.cacheEnabled with _ | _
  · -- cache disabled: compute from the rows, state unchanged
    simp only [hen, Bool.false_eq_true, if_false, hq]
    exact ⟨st, rfl, hc, rfl, rfl, hen, rfl⟩
  · simp only [hen, if_true, hq]
    rcases hcache : cacheFind st.cache ⟨st.path, z, n, prefer⟩ with _ | v
    · -- cache miss: compute from the rows and store the result
      refine ⟨_, rfl, ?_, rfl, rfl, rfl, rfl⟩
      intro e hmem hpath
      rcases mem_cacheInsert hmem with h1 | h1
      · exact hc e h1 hpath
      · rcases h1 with rfl
        exact ⟨hz, hn, rfl⟩
    · -- cache hit: the invariant says the stored value is the lookup value
      rcases cacheFind_eq_some hcache with ⟨e, hmem, hkey, hval⟩
      have hinv := hc e hmem (by rw [hkey])
      have hv : v = computeMassExcess st.rows z n prefer := by
        rw [← hval, hinv.2.2, hkey]
      rw [← hv]
      refine ⟨_, rfl, ?_, rfl, rfl, rfl, rfl⟩
      intro e2 hmem2 hpath2
      exact hc e2 (mem_moveToEnd hmem2) hpath2

/-- The value component an API caller observes from a stateful operation:
some v when the call returns normally with value v, none when it raises. -/
def okValue (r : Except NucError (Option ℚ × DbState)) : Option (Option ℚ) :=
  match r with
  | .ok (v, _) => some v
  | .error _ => none

/-- The experimental column of the fused view at (z, n), if any. -/
def expOf (rows : List Row) (z n : Int) : Option ℚ :=
  (findRow rows z n).bind Row.massExcessExp

/-- The theoretical column of the fused view at (z, n), if any. -/
def thOf (rows : List Row) (z n : Int) : Option ℚ :=
  (findRow rows z n).bind Row.massExcessTh

theorem computeMassExcess_experimental (rows : List Row) (z n : Int) :
    computeMassExcess rows z n "experimental"
      = (expOf rows z n).orElse (fun _ => thOf rows z n) := by
  unfold computeMassExcess massFromNuclide expOf thOf
  rcases findRow rows z n with _ | r
  · rfl
  · rcases hexp : r.massExcessExp with _ | ve <;>
      rcases hth : r.massExcessTh with _ | vt <;>
      simp [hexp, hth, Option.orElse]

theorem computeMassExcess_theoretical (rows : List Row) (z n : Int) :
    computeMassExcess rows z n "theoretical"
      = (thOf rows z n).orElse (fun _ => expOf rows z n) := by
  unfold computeMassExcess massFromNuclide expOf thOf
  rcases findRow rows z n with _ | r
  · rfl
  · rcases hexp : r.massExcessExp with _ | ve <;>
      rcases hth : r.massExcessTh with _ | vt <;>
      simp [hexp, hth, Option.orElse]

/-- C2: for every in-bounds (Z, N), get_mass_excess with
prefer="experimental" returns the experimental mass excess when present and
otherwise falls back to the theoretical value; with prefer="theoretical" it
returns the theoretical value when present and otherwise falls back to the
experimental value; and it returns None exactly when neither source has
data for (Z, N).  Stated over any state whose cache satisfies the
reachable-state invariant. -/
theorem C2_mass_excess_prefer_fallback (st : DbState) (z n : Int)
    (hz : inBoundsZ z) (hn : inBoundsN n) (hc : CacheOK st) :
    okValue (get_mass_excess st z n "experimental")
        = some ((expOf st.rows z n).orElse (fun _ => thOf st.rows z n))
  ∧ okValue (get_mass_excess st z n "theoretical")
        = some ((thOf st.rows z n).orElse (fun _ => expOf st.rows z n))
  ∧ (∀ prefer, prefer = "experimental" ∨ prefer = "theoretical" →
      (okValue (get_mass_excess st z n prefer) = some none ↔
        (expOf st.rows z n = none ∧ thOf st.rows z n = none))) := by
  refine ⟨?_, ?_, ?_⟩
  · rcases get_mass_excess_ok st z n "experimental" hz hn (Or.inl rfl) hc with
      ⟨st', heq, _⟩
    rw [heq]
    unfold okValue
    rw [computeMassExcess_experimental]
  · rcases get_mass_excess_ok st z n "theoretical" hz hn (Or.inr rfl) hc with
      ⟨st', heq, _⟩
    rw [heq]
    unfold okValue
    rw [computeMassExcess_theoretical]
  · intro prefer hp
    rcases get_mass_excess_ok st z n prefer hz hn hp hc with ⟨st', heq, _⟩
    rw [heq]
    unfold okValue
    have hnone := computeMassExcess_none_iff st.rows z n prefer
    unfold expOf thOf
    constructor
    · intro hsome
      have : computeMassExcess st.rows z n prefer = none := by
        simpa using hsome
      exact hnone.mp this
    · intro hboth
      have : computeMassExcess st.rows z n prefer = none := hnone.mpr hboth
      rw [this]

/-- Example view rows used by the concrete witnesses: Fe-like entries with
experimental and/or theoretical data and one empty record. -/
def demoRows : List Row :=
  [⟨26, 30, some (-60601), some (-60500)⟩,
   ⟨26, 31, none, some (-60000)⟩,
   ⟨26, 32, none, none⟩]

/-- A database state over demoRows with a cold cache. -/
def demoSt : DbState := ⟨"nuclear_masses.duckdb", demoRows, [], true, 2000⟩

theorem demoSt_cacheOK : CacheOK demoSt := by
  intro e he hp
  simp [demoSt] at he

theorem C2_mass_excess_prefer_fallback_witness :
    okValue (get_mass_excess demoSt 26 30 "experimental")
        = some ((expOf demoSt.rows 26 30).orElse (fun _ => thOf demoSt.rows 26 30))
  ∧ okValue (get_mass_excess demoSt 26 30 "theoretical")
        = some ((thOf demoSt.rows 26 30).orElse (fun _ => expOf demoSt.rows 26 30))
  ∧ (∀ prefer, prefer = "experimental" ∨ prefer = "theoretical" →
      (okValue (get_mass_excess demoSt 26 30 prefer) = some none ↔
        (expOf demoSt.rows 26 30 = none ∧ thOf demoSt.rows 26 30 = none))) :=
  C2_mass_excess_prefer_fallback demoSt 26 30 (by decide) (by decide) demoSt_cacheOK

/-- C9: calling get_mass_excess a second time with identical arguments
(after a first call that returned normally, so the cache is warm when
caching is enabled) returns a value identical to the first call's value.
Proved for every starting state: on a hit the entry is only moved to the
recently-used end, on a miss the computed value is stored and served, and
with caching disabled the recomputation reads the same unchanged rows. -/
theorem C9_mass_excess_idempotent (st st' : DbState) (z n : Int)
    (prefer : String) (v : Option ℚ)
    (h : get_mass_excess st z n prefer = .ok (v, st')) :
    ∃ st'', get_mass_excess st' z n prefer = .ok (v, st'') := by
  unfold get_mass_excess at h ⊢
  by_cases hpbad : prefer ≠ "experimental" ∧ prefer ≠ "theoretical"
  · rw [if_pos hpbad] at h
    exact absurd h (by simp)
  · rw [if_neg hpbad] at h
    rw [if_neg hpbad]
    rcases hen : st.cacheEnabled with _ | _
    · -- caching disabled: both calls recompute over the same rows
      rw [hen] at h
      simp only [Bool.false_eq_true, if_false] at h
      rcases hq : get_nuclide_or_none st.rows z n with e | nuclide
      · rw [hq] at h
        exact absurd h (by simp)
      · rw [hq] at h
        simp only [Except.ok.injEq, Prod.mk.injEq] at h
        rcases h with ⟨hv, hst⟩
        subst hst
        rw [hen]
        simp only [Bool.false_eq_true, if_false, hq]
        exact ⟨st, by rw [hv]⟩
    · rw [hen] at h
      simp only [if_true] at h
      rcases hcache : cacheFind st.cache ⟨st.path, z, n, prefer⟩ with _ | v0
      · -- first call missed: the result was stored, the second call hits it
        rw [hcache] at h
        rcases hq : get_nuclide_or_none st.rows z n with e | nuclide
        · rw [hq] at h
          exact absurd h (by simp)
        · rw [hq] at h
          dsimp only at h
          simp only [Except.ok.injEq, Prod.mk.injEq] at h
          rcases h with ⟨hv, hst⟩
          subst hst
          have hfind2 : cacheFind
              (cacheInsert st.cache st.cacheMax ⟨st.path, z, n, prefer⟩
                (massFromNuclide nuclide prefer)) ⟨st.path, z, n, prefer⟩
              = some (massFromNuclide nuclide prefer) :=
            cacheFind_cacheInsert_self hcache
          dsimp only
          rw [hfind2, ← hv]
          exact ⟨_, rfl⟩
      · -- first call hit: the entry was moved to the end, the second call hits it
        rw [hcache] at h
        dsimp only at h
        simp only [Except.ok.injEq, Prod.mk.injEq] at h
        rcases h with ⟨hv, hst⟩
        subst hst
        have hfind2 : cacheFind (moveToEnd st.cache ⟨st.path, z, n, prefer⟩)
            ⟨st.path, z, n, prefer⟩ = some v0 :=
          cacheFind_moveToEnd_self hcache
        dsimp only
        rw [hfind2, ← hv]
        exact ⟨_, rfl⟩

theorem C9_mass_excess_idempotent_witness :
    get_mass_excess demoSt 26 30 "experimental"
        = .ok (some (-60601), ⟨demoSt.path, demoSt.rows,
            [(⟨demoSt.path, 26, 30, "experimental"⟩, some (-60601))], true, 2000⟩)
  ∧ ∃ st'', get_mass_excess ⟨demoSt.path, demoSt.rows,
        [(⟨demoSt.path, 26, 30, "experimental"⟩, some (-60601))], true, 2000⟩
        26 30 "experimental" = .ok (some (-60601), st'') :=
  ⟨rfl, C9_mass_excess_idempotent demoSt _ 26 30 "experimental" (some (-60601)) rfl⟩

/-- C4: get_mass_excess with Z or N out of the configured bounds, or with a
prefer argument other than the two literals, always raises: a bad prefer
raises ValueError before anything else, and out-of-bounds Z or N raises
InvalidNuclideError — also when the cache already holds entries for this
database, since every cached entry for this path was validated before being
stored (the CacheOK invariant), so an out-of-bounds key can never be served
from the cache. Both errors are parameter errors, not the not-found
condition, and in neither case is None returned. -/
theorem C4_mass_excess_validation (st : DbState) (z n : Int) (prefer : String)
    (hc : CacheOK st) :
    (¬ (prefer = "experimental" ∨ prefer = "theoretical") →
      get_mass_excess st z n prefer
        = .error (.valueError "prefer must be experimental or theoretical"))
  ∧ ((prefer = "experimental" ∨ prefer = "theoretical") →
      ¬ (inBoundsZ z ∧ inBoundsN n) →
      ∃ msg, get_mass_excess st z n prefer = .error (.invalidNuclide msg)) := by
  constructor
  · intro hbad
    push_neg at hbad
    unfold get_mass_excess
    rw [if_pos hbad]
  · intro hp hout
    have hpne : ¬ (prefer ≠ "experimental" ∧ prefer ≠ "theoretical") := by
      rcases hp with h | h <;> simp [h]
    have hmiss : cacheFind st.cache ⟨st.path, z, n, prefer⟩ = none := by
      rcases hfind : cacheFind st.cache ⟨st.path, z, n, prefer⟩ with _ | v
      · rfl
      · rcases cacheFind_eq_some hfind with ⟨e, hmem, hkey, hval⟩
        have hinv := hc e hmem (by rw [hkey])
        rw [hkey] at hinv
        exact absurd ⟨hinv.1, hinv.2.1⟩ hout
    unfold get_mass_excess
    rw [if_neg hpne]
    have hsc : (if st.cacheEnabled then
        cacheFind st.cache ⟨st.path, z, n, prefer⟩ else none) = none := by
      rcases st.cacheEnabled with _ | _ <;> simp [hmiss]
    rw [hsc]
    unfold get_nuclide_or_none
    by_cases hz : inBoundsZ z
    · have hn : ¬ inBoundsN n := fun hn => hout ⟨hz, hn⟩
      have hvz : validate_z z = .ok () := by
        unfold validate_z
        rw [if_neg]
        push_neg
        exact ⟨hz.1, hz.2⟩
      have hvn : validate_n n = .error (.invalidNuclide "N out of valid range") := by
        unfold validate_n
        rw [if_pos]
        unfold inBoundsN at hn
        push_neg at hn
        by_cases h1 : n < N_MIN
        · exact Or.inl h1
        · exact Or.inr (by omega)
      rw [hvz, hvn]
      exact ⟨"N out of valid range", rfl⟩
    · have hvz : validate_z z = .error (.invalidNuclide "Z out of valid range") := by
        unfold validate_z
        rw [if_pos]
        unfold inBoundsZ at hz
        push_neg at hz
        by_cases h1 : z < Z_MIN
        · exact Or.inl h1
        · exact Or.inr (by omega)
      rw [hvz]
      exact ⟨"Z out of valid range", rfl⟩

/-- A state over demoRows whose cache is already warm with a validated
entry for this database path. -/
def warmSt : DbState :=
  ⟨"nuclear_masses.duckdb", demoRows,
    [(⟨"nuclear_masses.duckdb", 26, 30, "experimental"⟩, some (-60601))], true, 2000⟩

theorem warmSt_cacheOK : CacheOK warmSt := by
  intro e he hp
  rcases List.mem_singleton.mp he with rfl
  exact ⟨by decide, by decide, by decide⟩

theorem C4_mass_excess_validation_witness :
    (∃ msg, get_mass_excess warmSt 300 10 "experimental"
        = .error (.invalidNuclide msg))
  ∧ get_mass_excess warmSt 26 30 "bogus"
      = .error (.valueError "prefer must be experimental or theoretical") :=
  ⟨(C4_mass_excess_validation warmSt 300 10 "experimental" warmSt_cacheOK).2
      (Or.inl rfl) (by decide),
   (C4_mass_excess_validation warmSt 26 30 "bogus" warmSt_cacheOK).1 (by decide)⟩

/-- C7: for every in-bounds (Z, N) absent from the fused view, get_nuclide
raises NuclideNotFoundError carrying the suggestion list for that Z — whose
every element pairs this Z with an N that is actually available for it in
the view — while get_nuclide_or_none returns None without erroring. -/
theorem C7_not_found (rows : List Row) (z n : Int)
    (hz : inBoundsZ z) (hn : inBoundsN n)
    (habs : findRow rows z n = none) :
    get_nuclide rows z n
        = .error (.nuclideNotFound z n (suggestionsFor rows z))
  ∧ get_nuclide_or_none rows z n = .ok none
  ∧ ∀ p ∈ suggestionsFor rows z, p.1 = z ∧ ∃ r ∈ rows, r.z = z ∧ r.n = p.2 := by
  have hvz : validate_z z = .ok () := by
    unfold validate_z
    rw [if_neg]
    push_neg
    exact ⟨hz.1, hz.2⟩
  have hvn : validate_n n = .ok () := by
    unfold validate_n
    rw [if_neg]
    push_neg
    exact ⟨hn.1, hn.2⟩
  refine ⟨?_, ?_, ?_⟩
  · unfold get_nuclide
    rw [hvz, hvn, habs]
  · unfold get_nuclide_or_none
    rw [hvz, hvn, habs]
  · intro p hp
    unfold suggestionsFor at hp
    rcases List.mem_map.mp hp with ⟨n0, hn0, rfl⟩
    refine ⟨rfl, ?_⟩
    unfold availableN at hn0
    have hn0d := (List.perm_insertionSort (fun a b => a ≤ b) _).mem_iff.mp hn0
    have hn0m := List.mem_dedup.mp hn0d
    rcases List.mem_map.mp hn0m with ⟨r, hrmem, hrn⟩
    have hrz := List.of_mem_filter hrmem
    simp only [decide_eq_true_eq] at hrz
    exact ⟨r, List.mem_of_mem_filter hrmem, hrz, hrn⟩

theorem C7_not_found_witness :
    get_nuclide demoRows 26 40
        = .error (.nuclideNotFound 26 40 (suggestionsFor demoRows 26))
  ∧ get_nuclide_or_none demoRows 26 40 = .ok none
  ∧ ∀ p ∈ suggestionsFor demoRows 26,
      p.1 = 26 ∧ ∃ r ∈ demoRows, r.z = 26 ∧ r.n = p.2 :=
  C7_not_found demoRows 26 40 (by decide) (by decide) (by decide)

theorem filter_length_pos_iff {α : Type} (l : List α) (p : α → Bool) :
    0 < (l.filter p).length ↔ ∃ x ∈ l, p x = true := by
  rw [List.length_pos]
  constructor
  · intro hne
    rcases List.exists_mem_of_ne_nil _ hne with ⟨x, hx⟩
    exact ⟨x, List.mem_of_mem_filter hx, List.of_mem_filter hx⟩
  · rintro ⟨x, hxl, hxp⟩
    intro hnil
    have := List.mem_filter.mpr ⟨hxl, hxp⟩
    rw [hnil] at this
    exact absurd this (List.not_mem_nil x)

/-- C6: connecting to an existing persisted artifact runs the structural
sanity check: the connection raises DatabaseCorruptError (never any other
error) exactly when a required source table is missing, the nuclides view
is missing, or some view row violates A = Z + N; an artifact passing all
checks connects normally. -/
theorem C6_validate_on_connection (dbPath : String) (art : Artifact) :
    ((∃ reason, create_connection_existing dbPath art
        = .error (.databaseCorrupt dbPath reason)) ↔
      (¬ ("ame2020" ∈ art.tableNames ∧ "frdm2012" ∈ art.tableNames) ∨
        "nuclides" ∉ art.viewNames ∨ ∃ r ∈ art.nuclides, r.a ≠ r.z + r.n))
  ∧ (create_connection_existing dbPath art = .ok art ↔
      ("ame2020" ∈ art.tableNames ∧ "frdm2012" ∈ art.tableNames ∧
        "nuclides" ∈ art.viewNames ∧ ∀ r ∈ art.nuclides, r.a = r.z + r.n))
  ∧ (∀ e, create_connection_existing dbPath art = .error e →
      ∃ reason, e = .databaseCorrupt dbPath reason) := by
  have hval : ∀ e, create_connection_existing dbPath art = .error e ↔
      validate_database dbPath art = .error e := by
    intro e
    unfold create_connection_existing
    rcases hv : validate_database dbPath art with e0 | u
    · simp
    · simp
  have hok : create_connection_existing dbPath art = .ok art ↔
      validate_database dbPath art = .ok () := by
    unfold create_connection_existing
    rcases hv : validate_database dbPath art with e0 | u
    · simp
    · rcases u
      simp
  by_cases h1 : ¬ ("ame2020" ∈ art.tableNames) ∨ ¬ ("frdm2012" ∈ art.tableNames)
  · have hv : validate_database dbPath art
        = .error (.databaseCorrupt dbPath "Missing required tables") := by
      unfold validate_database
      rw [if_pos h1]
    refine ⟨?_, ?_, ?_⟩
    · constructor
      · intro _
        left
        intro hcontra
        rcases h1 with h | h
        · exact h hcontra.1
        · exact h hcontra.2
      · intro _
        exact ⟨"Missing required tables", (hval _).mpr hv⟩
    · constructor
      · intro hc
        rw [hok] at hc
        rw [hv] at hc
        exact absurd hc (by simp)
      · intro hcontra
        rcases h1 with h | h
        · exact absurd hcontra.1 h
        · exact absurd hcontra.2.1 h
    · intro e he
      rw [hval] at he
      rw [hv] at he
      simp only [Except.error.injEq] at he
      exact ⟨"Missing required tables", he.symm⟩
  · push_neg at h1
    by_cases h2 : "nuclides" ∈ art.viewNames
    · by_cases h3 : ∃ r ∈ art.nuclides, r.a ≠ r.z + r.n
      · have hpos : 0 < (art.nuclides.filter
            (fun r => decide (¬ r.a = r.z + r.n))).length := by
          rw [filter_length_pos_iff]
          rcases h3 with ⟨r, hr, hrne⟩
          exact ⟨r, hr, by simpa using hrne⟩
        have hv : validate_database dbPath art
            = .error (.databaseCorrupt dbPath
                "Data integrity check failed: A != Z + N") := by
          unfold validate_database
          rw [if_neg (by push_neg; exact h1), if_neg (by simpa using h2), if_pos hpos]
        refine ⟨?_, ?_, ?_⟩
        · exact ⟨fun _ => Or.inr (Or.inr h3),
            fun _ => ⟨_, (hval _).mpr hv⟩⟩
        · constructor
          · intro hc
            rw [hok, hv] at hc
            exact absurd hc (by simp)
          · intro hcontra
            rcases h3 with ⟨r, hr, hrne⟩
            exact absurd (hcontra.2.2.2 r hr) hrne
        · intro e he
          rw [hval, hv] at he
          simp only [Except.error.injEq] at he
          exact ⟨_, he.symm⟩
      · have hzero : ¬ 0 < (art.nuclides.filter
            (fun r => decide (¬ r.a = r.z + r.n))).length := by
          rw [filter_length_pos_iff]
          push_neg at h3 ⊢
          intro r hr
          simpa using h3 r hr
        have hv : validate_database dbPath art = .ok () := by
          unfold validate_database
          rw [if_neg (by push_neg; exact h1), if_neg (by simpa using h2),
            if_neg hzero]
        refine ⟨?_, ?_, ?_⟩
        · constructor
          · rintro ⟨reason, hr⟩
            rw [hval, hv] at hr
            exact absurd hr (by simp)
          · intro hcontra
            rcases hcontra with h | h | h
            · exact absurd ⟨h1.1, h1.2⟩ h
            · exact absurd h2 h
            · exact absurd h h3
        · constructor
          · intro _
            push_neg at h3
            exact ⟨h1.1, h1.2, h2, h3⟩
          · intro _
            exact hok.mpr hv
        · intro e he
          rw [hval, hv] at he
          exact absurd he (by simp)
    · have hv : validate_database dbPath art
          = .error (.databaseCorrupt dbPath "Missing nuclides view") := by
        unfold validate_database
        rw [if_neg (by push_neg; exact h1), if_pos (by simpa using h2)]
      refine ⟨?_, ?_, ?_⟩
      · exact ⟨fun _ => Or.inr (Or.inl h2),
          fun _ => ⟨_, (hval _).mpr hv⟩⟩
      · constructor
        · intro hc
          rw [hok, hv] at hc
          exact absurd hc (by simp)
        · intro hcontra
          exact absurd hcontra.2.2.1 h2
      · intro e he
        rw [hval, hv] at he
        simp only [Except.error.injEq] at he
        exact ⟨_, he.symm⟩

/-- A structurally corrupt artifact: tables and view are present but one
row of the view has A != Z + N. -/
def corruptArt : Artifact :=
  ⟨["ame2020", "frdm2012"], ["nuclides"], [⟨26, 30, 57⟩]⟩

/-- A healthy artifact over the same tables. -/
def healthyArt : Artifact :=
  ⟨["ame2020", "frdm2012"], ["nuclides"], [⟨26, 30, 56⟩]⟩

theorem C6_validate_on_connection_witness :
    (∃ reason, create_connection_existing "nuclear_masses.duckdb" corruptArt
        = .error (.databaseCorrupt "nuclear_masses.duckdb" reason))
  ∧ create_connection_existing "nuclear_masses.duckdb" healthyArt
      = .ok healthyArt :=
  ⟨(C6_validate_on_connection "nuclear_masses.duckdb" corruptArt).1.mpr
      (Or.inr (Or.inr ⟨⟨26, 30, 57⟩, by decide, by decide⟩)),
   (C6_validate_on_connection "nuclear_masses.duckdb" healthyArt).2.1.mpr
      (by refine ⟨by decide, by decide, by decide, ?_⟩; decide)⟩

/-- C8: for every in-bounds (Z, N), get_binding_energy equals
Z*Delta_H + N*Delta_n - mass_excess(Z,N) converted to MeV, and returns None
exactly when the (experimental-preference) mass excess is None. -/
theorem C8_binding_energy (st : DbState) (z n : Int)
    (hz : inBoundsZ z) (hn : inBoundsN n) (hc : CacheOK st) :
    okValue (get_binding_energy st z n)
      = some ((computeMassExcess st.rows z n "experimental").map
          (fun m => ((z : ℚ) * PROTON_MASS_EXCESS + (n : ℚ) * NEUTRON_MASS_EXCESS - m)
            / 1000))
  ∧ (okValue (get_binding_energy st z n) = some none ↔
      computeMassExcess st.rows z n "experimental" = none) := by
  rcases get_mass_excess_ok st z n "experimental" hz hn (Or.inl rfl) hc with
    ⟨st', heq, _⟩
  unfold get_binding_energy
  rw [heq]
  rcases computeMassExcess st.rows z n "experimental" with _ | m
  · exact ⟨rfl, by simp [okValue]⟩
  · exact ⟨rfl, by simp [okValue]⟩

theorem C8_binding_energy_witness :
    okValue (get_binding_energy demoSt 26 30)
      = some ((computeMassExcess demoSt.rows 26 30 "experimental").map
          (fun m => ((26 : ℚ) * PROTON_MASS_EXCESS + (30 : ℚ) * NEUTRON_MASS_EXCESS - m)
            / 1000))
  ∧ (okValue (get_binding_energy demoSt 26 30) = some none ↔
      computeMassExcess demoSt.rows 26 30 "experimental" = none) :=
  C8_binding_energy demoSt 26 30 (by decide) (by decide) demoSt_cacheOK

theorem sep_n_spec (st : DbState) (z n : Int)
    (hz : inBoundsZ z) (hn : inBoundsN n) (hc : CacheOK st) :
    (n < 1 → get_separation_energy_n st z n = .ok (none, st))
  ∧ (1 ≤ n → okValue (get_separation_energy_n st z n)
      = some (match computeMassExcess st.rows z n "experimental",
              computeMassExcess st.rows z (n - 1) "experimental" with
          | some p, some d => some ((d + NEUTRON_MASS_EXCESS - p) / 1000)
          | _, _ => none)) := by
  constructor
  · intro hlt
    unfold get_separation_energy_n
    rw [if_pos hlt]
  · intro hge
    have hib : inBoundsN (n - 1) := by
      unfold inBoundsN N_MIN N_MAX at hn ⊢
      omega
    rcases get_mass_excess_ok st z n "experimental" hz hn (Or.inl rfl) hc with
      ⟨st1, heq1, hc1, hrows1, _, _, _⟩
    rcases get_mass_excess_ok st1 z (n - 1) "experimental" hz hib (Or.inl rfl) hc1 with
      ⟨st2, heq2, _⟩
    unfold get_separation_energy_n
    rw [if_neg (by omega), heq1]
    dsimp only
    rw [heq2, hrows1]
    rcases computeMassExcess st.rows z n "experimental" with _ | p <;>
      rcases computeMassExcess st.rows z (n - 1) "experimental" with _ | d <;> rfl

theorem sep_p_spec (st : DbState) (z n : Int)
    (hz : inBoundsZ z) (hn : inBoundsN n) (hc : CacheOK st) :
    (z < 1 → get_separation_energy_p st z n = .ok (none, st))
  ∧ (1 ≤ z → okValue (get_separation_energy_p st z n)
      = some (match computeMassExcess st.rows z n "experimental",
              computeMassExcess st.rows (z - 1) n "experimental" with
          | some p, some d => some ((d + PROTON_MASS_EXCESS - p) / 1000)
          | _, _ => none)) := by
  constructor
  · intro hlt
    unfold get_separation_energy_p
    rw [if_pos hlt]
  · intro hge
    have hib : inBoundsZ (z - 1) := by
      unfold inBoundsZ Z_MIN Z_MAX at hz ⊢
      omega
    rcases get_mass_excess_ok st z n "experimental" hz hn (Or.inl rfl) hc with
      ⟨st1, heq1, hc1, hrows1, _, _, _⟩
    rcases get_mass_excess_ok st1 (z - 1) n "experimental" hib hn (Or.inl rfl) hc1 with
      ⟨st2, heq2, _⟩
    unfold get_separation_energy_p
    rw [if_neg (by omega), heq1]
    dsimp only
    rw [heq2, hrows1]
    rcases computeMassExcess st.rows z n "experimental" with _ | p <;>
      rcases computeMassExcess st.rows (z - 1) n "experimental" with _ | d <;> rfl

theorem sep_2n_spec (st : DbState) (z n : Int)
    (hz : inBoundsZ z) (hn : inBoundsN n) (hc : CacheOK st) :
    (n < 2 → get_separation_energy_2n st z n = .ok (none, st))
  ∧ (2 ≤ n → okValue (get_separation_energy_2n st z n)
      = some (match computeMassExcess st.rows z n "experimental",
              computeMassExcess st.rows z (n - 2) "experimental" with
          | some p, some d => some ((d + 2 * NEUTRON_MASS_EXCESS - p) / 1000)
          | _, _ => none)) := by
  constructor
  · intro hlt
    unfold get_separation_energy_2n
    rw [if_pos hlt]
  · intro hge
    have hib : inBoundsN (n - 2) := by
      unfold inBoundsN N_MIN N_MAX at hn ⊢
      omega
    rcases get_mass_excess_ok st z n "experimental" hz hn (Or.inl rfl) hc with
      ⟨st1, heq1, hc1, hrows1, _, _, _⟩
    rcases get_mass_excess_ok st1 z (n - 2) "experimental" hz hib (Or.inl rfl) hc1 with
      ⟨st2, heq2, _⟩
    unfold get_separation_energy_2n
    rw [if_neg (by omega), heq1]
    dsimp only
    rw [heq2, hrows1]
    rcases computeMassExcess st.rows z n "experimental" with _ | p <;>
      rcases computeMassExcess st.rows z (n - 2) "experimental" with _ | d <;> rfl

theorem sep_2p_spec (st : DbState) (z n : Int)
    (hz : inBoundsZ z) (hn : inBoundsN n) (hc : CacheOK st) :
    (z < 2 → get_separation_energy_2p st z n = .ok (none, st))
  ∧ (2 ≤ z → okValue (get_separation_energy_2p st z n)
      = some (match computeMassExcess st.rows z n "experimental",
              computeMassExcess st.rows (z - 2) n "experimental" with
          | some p, some d => some ((d + 2 * PROTON_MASS_EXCESS - p) / 1000)
          | _, _ => none)) := by
  constructor
  · intro hlt
    unfold get_separation_energy_2p
    rw [if_pos hlt]
  · intro hge
    have hib : inBoundsZ (z - 2) := by
      unfold inBoundsZ Z_MIN Z_MAX at hz ⊢
      omega
    rcases get_mass_excess_ok st z n "experimental" hz hn (Or.inl rfl) hc with
      ⟨st1, heq1, hc1, hrows1, _, _, _⟩
    rcases get_mass_excess_ok st1 (z - 2) n "experimental" hib hn (Or.inl rfl) hc1 with
      ⟨st2, heq2, _⟩
    unfold get_separation_energy_2p
    rw [if_neg (by omega), heq1]
    dsimp only
    rw [heq2, hrows1]
    rcases computeMassExcess st.rows z n "experimental" with _ | p <;>
      rcases computeMassExcess st.rows (z - 2) n "experimental" with _ | d <;> rfl

theorem sep_alpha_spec (st : DbState) (z n : Int)
    (hz : inBoundsZ z) (hn : inBoundsN n) (hc : CacheOK st) :
    ((z < 2 ∨ n < 2) → get_separation_energy_alpha st z n = .ok (none, st))
  ∧ (2 ≤ z → 2 ≤ n → okValue (get_separation_energy_alpha st z n)
      = some (match computeMassExcess st.rows z n "experimental",
              computeMassExcess st.rows (z - 2) (n - 2) "experimental" with
          | some p, some d => some ((d + ALPHA_MASS_EXCESS - p) / 1000)
          | _, _ => none)) := by
  constructor
  · intro hlt
    unfold get_separation_energy_alpha
    rw [if_pos hlt]
  · intro hgez hgen
    have hibz : inBoundsZ (z - 2) := by
      unfold inBoundsZ Z_MIN Z_MAX at hz ⊢
      omega
    have hibn : inBoundsN (n - 2) := by
      unfold inBoundsN N_MIN N_MAX at hn ⊢
      omega
    rcases get_mass_excess_ok st z n "experimental" hz hn (Or.inl rfl) hc with
      ⟨st1, heq1, hc1, hrows1, _, _, _⟩
    rcases get_mass_excess_ok st1 (z - 2) (n - 2) "experimental" hibz hibn
      (Or.inl rfl) hc1 with ⟨st2, heq2, _⟩
    unfold get_separation_energy_alpha
    rw [if_neg (by omega), heq1]
    dsimp only
    rw [heq2, hrows1]
    rcases computeMassExcess st.rows z n "experimental" with _ | p <;>
      rcases computeMassExcess st.rows (z - 2) (n - 2) "experimental" with _ | d <;> rfl

/-- C3: each separation-energy operation returns None when its nucleon-count
precondition fails (N>=1 for S_n, Z>=1 for S_p, N>=2 for S_2n, Z>=2 for
S_2p, Z>=2 and N>=2 for S_alpha) or a required mass excess is unavailable,
and otherwise equals daughter mass excess plus removed-cluster mass excess
minus parent mass excess, converted to MeV; below the domain bound no
computed number is ever produced. -/
theorem C3_separation_energies (st : DbState) (z n : Int)
    (hz : inBoundsZ z) (hn : inBoundsN n) (hc : CacheOK st) :
    ((n < 1 → get_separation_energy_n st z n = .ok (none, st))
      ∧ (1 ≤ n → okValue (get_separation_energy_n st z n)
          = some (match computeMassExcess st.rows z n "experimental",
                  computeMassExcess st.rows z (n - 1) "experimental" with
              | some p, some d => some ((d + NEUTRON_MASS_EXCESS - p) / 1000)
              | _, _ => none)))
  ∧ ((z < 1 → get_separation_energy_p st z n = .ok (none, st))
      ∧ (1 ≤ z → okValue (get_separation_energy_p st z n)
          = some (match computeMassExcess st.rows z n "experimental",
                  computeMassExcess st.rows (z - 1) n "experimental" with
              | some p, some d => some ((d + PROTON_MASS_EXCESS - p) / 1000)
              | _, _ => none)))
  ∧ ((n < 2 → get_separation_energy_2n st z n = .ok (none, st))
      ∧ (2 ≤ n → okValue (get_separation_energy_2n st z n)
          = some (match computeMassExcess st.rows z n "experimental",
                  computeMassExcess st.rows z (n - 2) "experimental" with
              | some p, some d => some ((d + 2 * NEUTRON_MASS_EXCESS - p) / 1000)
              | _, _ => none)))
  ∧ ((z < 2 → get_separation_energy_2p st z n = .ok (none, st))
      ∧ (2 ≤ z → okValue (get_separation_energy_2p st z n)
          = some (match computeMassExcess st.rows z n "experimental",
                  computeMassExcess st.rows (z - 2) n "experimental" with
              | some p, some d => some ((d + 2 * PROTON_MASS_EXCESS - p) / 1000)
              | _, _ => none)))
  ∧ (((z < 2 ∨ n < 2) → get_separation_energy_alpha st z n = .ok (none, st))
      ∧ (2 ≤ z → 2 ≤ n → okValue (get_separation_energy_alpha st z n)
          = some (match computeMassExcess st.rows z n "experimental",
                  computeMassExcess st.rows (z - 2) (n - 2) "experimental" with
              | some p, some d => some ((d + ALPHA_MASS_EXCESS - p) / 1000)
              | _, _ => none))) :=
  ⟨sep_n_spec st z n hz hn hc, sep_p_spec st z n hz hn hc,
   sep_2n_spec st z n hz hn hc, sep_2p_spec st z n hz hn hc,
   sep_alpha_spec st z n hz hn hc⟩

theorem C3_separation_energies_witness :
    get_separation_energy_n demoSt 26 0 = .ok (none, demoSt)
  ∧ get_separation_energy_p demoSt 0 30 = .ok (none, demoSt)
  ∧ get_separation_energy_2n demoSt 26 1 = .ok (none, demoSt)
  ∧ get_separation_energy_2p demoSt 1 30 = .ok (none, demoSt)
  ∧ get_separation_energy_alpha demoSt 1 30 = .ok (none, demoSt)
  ∧ okValue (get_separation_energy_n demoSt 26 31)
      = some (match computeMassExcess demoSt.rows 26 31 "experimental",
              computeMassExcess demoSt.rows 26 30 "experimental" with
          | some p, some d => some ((d + NEUTRON_MASS_EXCESS - p) / 1000)
          | _, _ => none) :=
  ⟨(C3_separation_energies demoSt 26 0 (by decide) (by decide) demoSt_cacheOK).1.1
      (by decide),
   (C3_separation_energies demoSt 0 30 (by decide) (by decide) demoSt_cacheOK).2.1.1
      (by decide),
   (C3_separation_energies demoSt 26 1 (by decide) (by decide) demoSt_cacheOK).2.2.1.1
      (by decide),
   (C3_separation_energies demoSt 1 30 (by decide) (by decide) demoSt_cacheOK).2.2.2.1.1
      (by decide),
   (C3_separation_energies demoSt 1 30 (by decide) (by decide) demoSt_cacheOK).2.2.2.2.1
      (Or.inl (by decide)),
   (C3_separation_energies demoSt 26 31 (by decide) (by decide) demoSt_cacheOK).1.2
      (by decide)⟩

/-- C10: whenever a projectile or ejectile of get_q_value is not one of the
four fixed light particles, the nested recursive lookup is performed with
the default preference "experimental" (experimental-first with theoretical
fallback): get_q_value exposes no preference parameter, and the nested
get_mass_excess call uses the default, so for every non-fixed particle the
resolved value is exactly the experimental-preference lookup (scaled by the
code's factor 1000 and subject to its falsy-zero test). -/
theorem C10_light_particle_uses_experimental (st : DbState) (z n : Int)
    (hfixed : ¬ ((z = 0 ∧ n = 0) ∨ (z = 0 ∧ n = 1) ∨ (z = 1 ∧ n = 0)
      ∨ (z = 2 ∧ n = 2)))
    (hz : inBoundsZ z) (hn : inBoundsN n) (hc : CacheOK st) :
    okValue (get_light_particle_mass st z n)
      = some (match computeMassExcess st.rows z n "experimental" with
          | some v => if v = 0 then none else some (v * 1000)
          | none => none) := by
  have h1 : ¬ (z = 0 ∧ n = 0) := fun h => hfixed (Or.inl h)
  have h2 : ¬ (z = 0 ∧ n = 1) := fun h => hfixed (Or.inr (Or.inl h))
  have h3 : ¬ (z = 1 ∧ n = 0) := fun h => hfixed (Or.inr (Or.inr (Or.inl h)))
  have h4 : ¬ (z = 2 ∧ n = 2) := fun h => hfixed (Or.inr (Or.inr (Or.inr h)))
  rcases get_mass_excess_ok st z n "experimental" hz hn (Or.inl rfl) hc with
    ⟨st1, heq, _⟩
  unfold get_light_particle_mass
  rw [if_neg h1, if_neg h2, if_neg h3, if_neg h4, heq]
  rcases computeMassExcess st.rows z n "experimental" with _ | v
  · rfl
  · dsimp only
    by_cases hv0 : v = 0
    · rw [if_pos hv0, if_pos hv0]
      rfl
    · rw [if_neg hv0, if_neg hv0]
      rfl

theorem C10_light_particle_uses_experimental_witness :
    okValue (get_light_particle_mass demoSt 26 30)
      = some (match computeMassExcess demoSt.rows 26 30 "experimental" with
          | some v => if v = 0 then none else some (v * 1000)
          | none => none) :=
  C10_light_particle_uses_experimental demoSt 26 30 (by decide) (by decide)
    (by decide) demoSt_cacheOK

/-- Rows exhibiting the get_q_value light-particle defects: a deuteron-like
nuclide (1,1) with experimental mass 13136 keV, an alpha-like entry (2,2),
a nuclide (3,3) whose experimental mass excess is exactly 0 keV, and a
(5,5) entry. -/
def qbugRows : List Row :=
  [⟨1, 1, some 13136, none⟩, ⟨2, 2, some 2425, none⟩,
   ⟨3, 3, some 0, none⟩, ⟨5, 5, some 100, none⟩]

/-- A cold-cache state over qbugRows. -/
def qbugSt : DbState := ⟨"nuclear_masses.duckdb", qbugRows, [], true, 2000⟩

/-- C1: evaluation of get_q_value at reactions whose ejectile is not one of
the four fixed light particles.  First conjunct: for the reaction
(2,2) -> (1,1) + ejectile (1,1) (projectile inferred as the gamma (0,0)),
with every required mass excess available, the code returns
((2425 + 0) - (13136 + 13136 * 1000)) / 1000 MeV: the nested
get_mass_excess result — already in keV — is multiplied by 1000 once more
(the code comment says 'Convert MeV to keV' although get_mass_excess is
documented to return keV).  Second conjunct: this differs from the claimed
value in which all terms are in keV.  Third and fourth conjuncts: for
(5,5) -> (2,2) + ejectile (3,3), the ejectile's mass excess is available
and equal to 0 keV, yet `return m * 1000 if m else None` treats the falsy
0.0 as missing and the operation returns None. -/
theorem C1_qvalue_light_particle_defects :
    okValue (get_q_value qbugSt 2 2 1 1 1 1)
        = some (some (((2425 + 0) - (13136 + 13136 * 1000)) / 1000))
  ∧ (((2425 + 0 : ℚ) - (13136 + 13136 * 1000)) / 1000
        ≠ ((2425 + 0) - (13136 + 13136)) / 1000)
  ∧ okValue (get_q_value qbugSt 5 5 2 2 3 3) = some none
  ∧ expOf qbugSt.rows 3 3 = some 0 :=
  ⟨rfl, by norm_num, rfl, rfl⟩

/-- A raw AME2020 row whose identity columns parse to Z=2, N=2, A=5,
violating A = Z + N. -/
def ameBadRaw : AMERawRow :=
  { cc := none
    nzTok := none
    nTok := some ⟨false, some 2⟩
    zTok := some ⟨false, some 2⟩
    aTok := some ⟨false, some 5⟩
    element := some "He"
    origin := none
    betaType := none
    massExcessTok := some ⟨false, some 12345⟩
    atomicMassIntTok := none
    atomicMassMicroUTok := none
    otherNumeric := [] }

/-- The cleaned row the AME2020 parser emits for ameBadRaw. -/
def ameBadOut : AMERow :=
  { nz := none
    n := some 2
    z := 2
    a := some 5
    element := some "He"
    origin := none
    betaType := none
    massExcess := some 12345
    massExcessEstimated := false
    atomicMassMicroU := none
    atomicMassMicroUEstimated := false
    otherNumeric := [] }

/-- C5 counterexample: the AME2020 parser performs no A = Z + N validation:
a raw row with Z=2, N=2, A=5 survives _clean_dataframe into the output,
refuting the claim that every source parser discards rows violating the
identity. -/
theorem C5_ame_emits_invalid_row :
    ame_clean [ameBadRaw] = [ameBadOut]
  ∧ ameBadOut.z = 2 ∧ ameBadOut.n = some 2 ∧ ameBadOut.a = some 5
  ∧ ¬ ((5 : Int) = 2 + 2) :=
  ⟨rfl, rfl, rfl, rfl, by decide⟩

/-- C5 (amended): the FRDM2012 extractor validates A = Z + N and discards
(and counts) the violating rows, so every row of its output satisfies
A = Z + N; the AME2020 parser performs no such validation (see the
counterexample), so only the FRDM2012 half of the original claim holds. -/
theorem C5_frdm_output_satisfies_identity (rows : List (List (Option Token))) :
    ∀ r ∈ frdm_build rows, r.a = r.z + r.n := by
  intro r hr
  unfold frdm_build at hr
  rcases List.mem_filterMap.mp hr with ⟨cells, _, hbuild⟩
  unfold frdm_build_row at hbuild
  rcases cells with _ | ⟨c0, cells1⟩
  · exact Option.noConfusion hbuild
  rcases cells1 with _ | ⟨c1, cells2⟩
  · exact Option.noConfusion hbuild
  rcases cells2 with _ | ⟨c2, rest⟩
  · exact Option.noConfusion hbuild
  dsimp only at hbuild
  rcases hz0 : c0.bind Token.toIntCol with _ | z0 <;> rw [hz0] at hbuild
  · exact Option.noConfusion hbuild
  · rcases hn0 : c1.bind Token.toIntCol with _ | n0 <;> rw [hn0] at hbuild
    · exact Option.noConfusion hbuild
    · rcases ha0 : c2.bind Token.toIntCol with _ | a0 <;> rw [ha0] at hbuild
      · exact Option.noConfusion hbuild
      · dsimp only at hbuild
        by_cases hval : a0 = z0 + n0
        · rw [if_pos hval] at hbuild
          injection hbuild with hrow
          rw [← hrow]
          exact hval
        · rw [if_neg hval] at hbuild
          exact Option.noConfusion hbuild

/-- One tokenised raw FRDM2012 text row: Z=8, N=8, A=16. -/
def frdmDemoRaw : List (List (Option Token)) :=
  [[some ⟨false, some 8⟩, some ⟨false, some 8⟩, some ⟨false, some 16⟩]]

/-- The row the FRDM2012 extraction produces from frdmDemoRaw. -/
def frdmDemoRow : FRDMRow := ⟨8, 8, 16, List.replicate 16 none⟩

theorem C5_frdm_output_satisfies_identity_witness :
    frdmDemoRow ∈ frdm_build frdmDemoRaw
  ∧ frdmDemoRow.a = frdmDemoRow.z + frdmDemoRow.n :=
  ⟨by decide,
   C5_frdm_output_satisfies_identity frdmDemoRaw frdmDemoRow (by decide)⟩

end Nucmass
